import Mathlib

/-!
Verification development for the FyrethCraft launcher's process builder
(ProcessBuilder: argument construction, classpath merging, native-library
extraction, architecture normalization, mod enablement, join-token fetch).

JavaScript strings are modelled as Lean `String`; string helpers that the
source uses (trim, startsWith, endsWith, indexOf-containment) are modelled
explicitly on the character list so that their behaviour matches the
JavaScript semantics used by the code.
-/

namespace PB

/-- Model of JavaScript `String.prototype.trim`: drop whitespace from both
ends of the character list. -/
def jsTrimList (l : List Char) : List Char :=
  ((l.dropWhile Char.isWhitespace).reverse.dropWhile Char.isWhitespace).reverse

/-- Model of `arg.trim()` from the source's filtering pass. -/
def jsTrim (s : String) : String :=
  String.mk (jsTrimList s.data)

/-- Model of JavaScript `s.startsWith(p)`. -/
def jsStartsWith (s p : String) : Bool :=
  p.data.isPrefixOf s.data

/-- Model of JavaScript `s.endsWith(p)`. -/
def jsEndsWith (s p : String) : Bool :=
  p.data.reverse.isPrefixOf s.data.reverse

/-- Model of JavaScript `s.indexOf(pat) > -1` (substring containment; an
empty pattern is contained in every string, as in JavaScript). -/
def containsSubstr (s pat : String) : Bool :=
  s.data.tails.any (fun t => pat.data.isPrefixOf t)

/-- Model of `path.join(a, b)` with the forward-slash separator. -/
def pathJoin (a b : String) : String :=
  a ++ "/" ++ b

/-- Model of the global dash-removing replace in `formatUUID`. -/
def stripDashes (l : List Char) : List Char :=
  l.filter (fun c => c ≠ '-')

/-- `stripDashes` lifted to `String`. -/
def stripDashesStr (s : String) : String :=
  String.mk (stripDashes s.data)

/-- Regroup a 32-character dashless UUID as 8-4-4-4-12, mirroring the
`substring` calls of `formatUUID`. -/
def groupUUID (c : List Char) : List Char :=
  c.take 8 ++ '-' :: ((c.drop 8).take 4) ++ '-' :: ((c.drop 12).take 4)
    ++ '-' :: ((c.drop 16).take 4) ++ '-' :: ((c.drop 20).take 12)

/-- Model of `formatUUID` from ProcessBuilder: falsy input (the empty
string) is returned as-is; otherwise dashes are removed and, if exactly 32
characters remain, they are regrouped 8-4-4-4-12; any other input is
returned unchanged. -/
def formatUUID (s : String) : String :=
  if s = "" then s
  else
    let clean := stripDashes s.data
    if clean.length = 32 then String.mk (groupUUID clean) else s

/-- Model of `normalizeArchitecture(arch, platform, forMojangManifest)`:
converts between the compact (Node.js) architecture names and the Mojang
manifest names, falling through to the input when no branch applies. -/
def normalizeArchitecture (arch platform : String) (forMojangManifest : Bool) : String :=
  if forMojangManifest then
    if platform = "darwin" ∨ platform = "linux" then
      if arch = "arm64" then "aarch64"
      else if arch = "x64" then "x86_64"
      else arch
    else if platform = "win32" then
      if arch = "x64" then "x64" else arch
    else arch
  else
    if arch = "aarch64" then "arm64"
    else if arch = "arm64" then "arm64"
    else if arch = "x86_64" then "x64"
    else if arch = "x64" then "x64"
    else arch

/-- Split a character list on a separator character. -/
def splitOnChar (sep : Char) : List Char → List (List Char)
  | [] => [[]]
  | c :: rest =>
    let r := splitOnChar sep rest
    if c = sep then [] :: r
    else (c :: r.headD []) :: r.tail

/-- Parse a run of decimal digits (none on a non-digit). -/
def natOfDigitsAux (acc : Nat) : List Char → Option Nat
  | [] => some acc
  | c :: rest =>
    if c.isDigit then natOfDigitsAux (acc * 10 + (c.toNat - 48)) rest else none

/-- Version components of a version string, used by the helios-core helper
`mcVersionAtLeast` that the builder imports (numeric, dot-separated;
non-numeric components count as zero). -/
def verNums (s : String) : List Nat :=
  (splitOnChar '.' s.data).map (fun p => (natOfDigitsAux 0 p).getD 0)

/-- Component-wise comparison of version component lists; missing trailing
components count as zero. -/
def verGE : List Nat → List Nat → Bool
  | [], [] => true
  | [], d :: ds => if 0 < d then false else verGE [] ds
  | _ :: _, [] => true
  | a :: as, d :: ds =>
    if d < a then true else if a < d then false else verGE as ds

/-- Modelled from the spec: `mcVersionAtLeast(desired, actual)` is imported
from the external helios-core package (not under src); it reports whether
the actual Minecraft version is at least the desired one, comparing
dot-separated numeric components. -/
def mcVersionAtLeast (desired actual : String) : Bool :=
  verGE (verNums actual) (verNums desired)

/-! ## Mod enablement (isModEnabled, resolveModConfiguration) -/

/-- Module types from helios-distribution-types used by ProcessBuilder. -/
inductive MType where
  | ForgeMod | LiteMod | LiteLoader | FabricMod
  | Library | ForgeHosted | Fabric | File
deriving DecidableEq, Repr

/-- A stored mod-configuration value: either a boolean, or an object with
an optional boolean value field and an optional nested mods map. -/
inductive ModCfgVal where
  | b (v : Bool)
  | obj (value : Option Bool) (mods : Option (List (String × ModCfgVal)))

/-- The required object of a distro mod declaration (helios-core's
Required wrapper: value = is the mod required, d = its default). -/
structure Required where
  value : Bool
  d : Bool

/-- Model of `ProcessBuilder.isModEnabled(modCfg, required)`. -/
def isModEnabled (modCfg : Option ModCfgVal) (required : Option Required) : Bool :=
  match modCfg with
  | some (.b v) => v
  | some (.obj value _) => value.getD true
  | none => match required with | some r => r.d | none => true

/-- Modelled from the spec's own words, for comparison with the code: a
mod is enabled iff its stored configuration is the boolean true, or an
object whose value field is true or absent, or there is no stored
configuration and the declared required default allows it (an absent
requirement meaning enabled). -/
def specModEnabled (modCfg : Option ModCfgVal) (required : Option Required) : Bool :=
  match modCfg with
  | some (.b v) => v = true
  | some (.obj value _) => value = none ∨ value = some true
  | none => match required with | some r => r.d | none => true

/-- A distro module: type, versionless maven identifier, required policy
(value and default), filesystem path, classpath flag, sub-modules. -/
inductive Module where
  | mk (mtype : MType) (id : String) (reqValue : Bool) (reqDef : Bool)
       (mpath : String) (cpFlag : Bool) (subModules : List Module)

def Module.mtype : Module → MType
  | .mk t _ _ _ _ _ _ => t

def Module.id : Module → String
  | .mk _ i _ _ _ _ _ => i

def Module.reqValue : Module → Bool
  | .mk _ _ rv _ _ _ _ => rv

def Module.reqDef : Module → Bool
  | .mk _ _ _ rd _ _ _ => rd

def Module.mpath : Module → String
  | .mk _ _ _ _ p _ _ => p

def Module.cpFlag : Module → Bool
  | .mk _ _ _ _ _ f _ => f

def Module.subModules : Module → List Module
  | .mk _ _ _ _ _ _ s => s

/-- The stored mod-configuration map keyed by versionless maven id. -/
abbrev CfgMap := List (String × ModCfgVal)

/-- Model of `modCfg[id]` (property lookup on a configuration object). -/
def cfgLookup (m : CfgMap) (k : String) : Option ModCfgVal :=
  (m.find? (fun p => p.1 = k)).map (fun p => p.2)

/-- Model of the `modCfg[id].mods` access of resolveModConfiguration: on a
missing configuration the property access throws (none); on a boolean the
access yields undefined (some none); on an object it yields its mods. -/
def subCfgOf : Option ModCfgVal → Option (Option CfgMap)
  | none => none
  | some (.b _) => some none
  | some (.obj _ m) => some m

/-- The module types handled by resolveModConfiguration. -/
def relevantModType (t : MType) : Bool :=
  t = .ForgeMod ∨ t = .LiteMod ∨ t = .LiteLoader ∨ t = .FabricMod

mutual

/-- Model of `resolveModConfiguration(modCfg, mdls)`, returning the pair
(fMods, lMods); the outer Option is none exactly when the source would
throw a TypeError reading a property of an undefined configuration. The
loop body is split into the per-module helper resolveModHead; one
iteration contributes the sub-tree mods (and possibly the module itself)
before the remaining modules. -/
def resolveModConfiguration : Option CfgMap → List Module → Option (List Module × List Module)
  | _, [] => some ([], [])
  | cfg?, mdl :: rest => do
    let head ← resolveModHead cfg? mdl
    let restR ← resolveModConfiguration cfg? rest
    pure (head.1 ++ restR.1, head.2 ++ restR.2)

/-- One iteration of the resolveModConfiguration loop: a module of an
irrelevant type, or a disabled optional module, contributes nothing; an
included module contributes its resolved sub-tree followed by itself
(except a LiteLoader with sub-modules, which is itself not pushed). -/
def resolveModHead : Option CfgMap → Module → Option (List Module × List Module)
  | cfg?, .mk t i rv rd p f subs =>
    if relevantModType t then do
      let cfg ← cfg?
      let stored := cfgLookup cfg i
      let o := !rv
      let e := isModEnabled stored (some ⟨rv, rd⟩)
      if !o || (o && e) then
        let sub ← if subs.length > 0 then do
            let subc ← subCfgOf stored
            resolveModConfiguration subc subs
          else pure (([], []) : List Module × List Module)
        let mdl := Module.mk t i rv rd p f subs
        if t = .LiteLoader ∧ subs.length > 0 then
          pure sub
        else if t = .ForgeMod ∨ t = .FabricMod then
          pure (sub.1 ++ [mdl], sub.2)
        else
          pure (sub.1, sub.2 ++ [mdl])
      else
        pure ([], [])
    else
      pure ([], [])

end

/-! ## Classpath resolution (classpathArg and the library maps) -/

/-- Model of a JavaScript object property assignment `m[k] = v`: if the key
is present its value is overwritten in place (key order kept), otherwise
the pair is appended. -/
def jsInsert (m : List (String × String)) (k v : String) : List (String × String) :=
  if m.any (fun p => p.1 = k) then
    m.map (fun p => if p.1 = k then (k, v) else p)
  else m ++ [(k, v)]

/-- Model of the object spread merge used by classpathArg: keys
of the first object keep their position, entries of the second overwrite
by key or are appended in order. -/
def jsMerge (a b : List (String × String)) : List (String × String) :=
  b.foldl (fun acc p => jsInsert acc p.1 p.2) a

/-- Lookup in a modelled JavaScript object. -/
def mapLookup (m : List (String × String)) (k : String) : Option String :=
  (m.find? (fun p => p.1 = k)).map (fun p => p.2)

/-- Model of `lib.name.substring(0, lib.name.lastIndexOf(':'))`: the
version-independent maven identifier, i.e. everything before the last
colon (empty when there is no colon, as the JavaScript substring call
yields). -/
def versionlessMavenId (name : String) : String :=
  if name.data.contains ':' then
    String.mk (((name.data.reverse.dropWhile (fun c => c ≠ ':')).tail).reverse)
  else ""

/-- A manifest library as consumed by _resolveMojangLibraries: maven name,
whether isLibraryCompatible accepts it, whether it has a pre-1.19 natives
map, and its download artifact path. -/
structure MojangLib where
  name : String
  compatible : Bool
  hasNatives : Bool
  artifactPath : String

/-- Model of the non-native branch of `_resolveMojangLibraries`: every
compatible library that has no natives map and no natives- marker in its
name is stored in the map under its version-independent identifier. -/
def resolveMojangLibsMap (libPath : String) (libs : List MojangLib) : List (String × String) :=
  libs.foldl
    (fun acc lib =>
      if lib.compatible && !lib.hasNatives && !(containsSubstr lib.name "natives-") then
        jsInsert acc (versionlessMavenId lib.name) (pathJoin libPath lib.artifactPath)
      else acc)
    []

mutual

/-- Model of `_resolveModuleLibraries(mdl)`: collect Library sub-modules
whose classpath flag (default true) is set, recursing into every
sub-module; returns the empty map when there are no sub-modules. -/
def resolveModuleLibraries : Module → List (String × String)
  | .mk _ _ _ _ _ _ subs =>
    if subs.length = 0 then [] else moduleLibsFold [] subs

/-- The fold over sub-modules inside `_resolveModuleLibraries`. -/
def moduleLibsFold (acc : List (String × String)) : List Module → List (String × String)
  | [] => acc
  | sm :: rest =>
    let acc1 := if sm.mtype = MType.Library then
        (if sm.cpFlag then jsInsert acc sm.id sm.mpath else acc)
      else acc
    moduleLibsFold (jsMerge acc1 (resolveModuleLibraries sm)) rest

end

/-- Model of `_resolveServerLibraries(mods)` (the loop over the server's
modules; the trailing loop over `mods` tests `mods.sub_modules` on the
array itself, which is always undefined, so it never contributes). -/
def resolveServerLibraries (mdls : List Module) : List (String × String) :=
  mdls.foldl
    (fun acc mdl =>
      if mdl.mtype = MType.ForgeHosted ∨ mdl.mtype = MType.Fabric ∨ mdl.mtype = MType.Library then
        let acc := jsInsert acc mdl.id mdl.mpath
        if mdl.subModules.length > 0 then jsMerge acc (resolveModuleLibraries mdl) else acc
      else acc)
    []

/-- Model of `_processClassPathList`: truncate an entry after the first
".jar" occurrence when it is not already the suffix. -/
def processClassPathEntry (s : String) : String :=
  match (s.data.tails.takeWhile (fun t => !(".jar".data.isPrefixOf t))).length,
        s.data.tails.any (fun t => ".jar".data.isPrefixOf t) with
  | idx, true =>
    if idx = s.data.length - 4 then s else String.mk (s.data.take (idx + 4))
  | _, false => s

/-- The state consumed by classpathArg. -/
structure CPState where
  mcVersion : String
  usingFabricLoader : Bool
  usingLiteLoader : Bool
  llPath : String
  commonDir : String
  libPath : String
  vanillaId : String
  manifestLibraries : List MojangLib
  modules : List Module

/-- The version jar path pushed by classpathArg. -/
def versionJarPath (s : CPState) : String :=
  pathJoin (pathJoin (pathJoin s.commonDir "versions") s.vanillaId) (s.vanillaId ++ ".jar")

/-- Model of `classpathArg(mods, tempNativePath)`: version jar (unless
Forge on 1.17+), then the liteloader jar if active, then the merged
library maps (server/module entries overriding Mojang ones by identity),
each entry post-processed to end at its ".jar" suffix. -/
def classpathArg (s : CPState) : List String :=
  let base :=
    if !(mcVersionAtLeast "1.17" s.mcVersion) || s.usingFabricLoader then
      [versionJarPath s]
    else []
  let base := base ++ (if s.usingLiteLoader then [s.llPath] else [])
  let mojangLibs := resolveMojangLibsMap s.libPath s.manifestLibraries
  let servLibs := resolveServerLibraries s.modules
  let finalLibs := jsMerge mojangLibs servLibs
  (base ++ finalLibs.map (fun p => p.2)).map processClassPathEntry

/-! ## Native library extraction (zip-entry selection and naming) -/

/-- A zip entry of a native archive (name and directory flag). -/
structure ZipEntry where
  entryName : String
  isDirectory : Bool
deriving DecidableEq, Repr

/-- Model of the exclusion test: an entry is excluded when any exclusion
string occurs as a substring of its name (indexOf > -1). -/
def shouldExclude (exclusions : List String) (name : String) : Bool :=
  exclusions.any (fun e => containsSubstr name e)

/-- The relative path actually created under the target directory by
path.join(targetDir, name): leading slashes collapse into the join. -/
def writtenRelative (n : String) : String :=
  String.mk (n.data.dropWhile (fun c => c = '/'))

/-- Model of the pre-1.19 (legacy natives-map) extraction loop of
`_resolveMojangLibraries`: every non-excluded entry is written to
path.join(tempNativePath, entryName) with its full entry name. -/
def legacyExtractNames (exclusions : List String) (entries : List ZipEntry) : List String :=
  entries.filterMap
    (fun z => if shouldExclude exclusions z.entryName then none
              else some (writtenRelative z.entryName))

/-- Model of `extractName` in the 1.19+ branch: keep from the last slash
(inclusive) when the name contains a slash. -/
def modernExtractName (n : String) : String :=
  if n.data.contains '/' then
    String.mk ('/' :: (n.data.reverse.takeWhile (fun c => c ≠ '/')).reverse)
  else n

/-- Model of the 1.19+ extraction loop of `_resolveMojangLibraries`:
directory entries are skipped, excluded entries are skipped, and surviving
entries are written under their last path component. -/
def modernExtractNames (exclusions : List String) (entries : List ZipEntry) : List String :=
  entries.filterMap
    (fun z =>
      if z.isDirectory then none
      else if shouldExclude exclusions z.entryName then none
      else some (writtenRelative (modernExtractName z.entryName)))

/-! ## Argument template engine (_constructJVMArguments113) -/

/-- The os field of a manifest rule. -/
structure OsSpec where
  name : String
  version : Option String

/-- A manifest rule: an os rule or a features rule (the only feature the
code handles is has_custom_resolution). -/
inductive MRule where
  | osRule (os : OsSpec) (action : String)
  | featuresRule (hasCustomResolution : Option Bool) (action : String)

/-- The value attached to a conditional-rule argument entry. -/
inductive ArgValue where
  | vstr (s : String)
  | vlist (l : List String)

/-- An argument-template entry: a plain string or a conditional-rule
object with its rule list and value. -/
inductive Arg where
  | str (s : String)
  | ruleObj (rules : List MRule) (value : ArgValue)

/-- The launch-time environment read by the argument engine (platform,
Mojang OS name, the os.release regex test, the configuration store and
the session object). -/
structure LaunchCfg where
  platform : String
  mojangOS : String
  osReleaseMatches : String → Bool
  fullscreen : Bool
  displayName : String
  uuid : String
  accessToken : Option String
  username : Option String
  userType : String
  xuid : Option String
  serverId : String
  gameDir : String
  commonDir : String
  assetsIndexName : String
  vanillaType : String
  gameWidth : String
  gameHeight : String
  tempNativePath : String
  launcherVersion : String
  autoConnect : Bool
  serverAutoconnect : Bool
  mcVersion : String
  hostname : String
  port : String

/-- Whether one rule contributes to the checksum of the rule loop: an os
rule counts for allow when the OS (and optional version regex) matches and
for disallow when it does not; a features rule counts exactly when it
names has_custom_resolution as true. -/
def ruleAllows (c : LaunchCfg) : MRule → Bool
  | .osRule os action =>
    if os.name = c.mojangOS
        && (match os.version with | none => true | some v => c.osReleaseMatches v) then
      action = "allow"
    else
      action = "disallow"
  | .featuresRule hcr _ => hcr = some true

/-- The checksum accumulated over a rule list. -/
def checksum (c : LaunchCfg) (rules : List MRule) : Nat :=
  (rules.filter (ruleAllows c)).length

/-- Whether a rule is a has_custom_resolution features rule. -/
def hasCustomResRule : MRule → Bool
  | .featuresRule (some true) _ => true
  | _ => false

/-- The value after the rule loop's in-place mutation: a fullscreen
configuration with a custom-resolution features rule overwrites the value
with the fullscreen pair. -/
def effectiveValue (c : LaunchCfg) (rules : List MRule) (v : ArgValue) : ArgValue :=
  if c.fullscreen && rules.any hasCustomResRule then
    .vlist ["--fullscreen", "true"]
  else v

/-- The strings a resolved value contributes (a scalar occupies one slot,
a list is spliced in place). -/
def valueArgs : ArgValue → List String
  | .vstr s => [s]
  | .vlist l => l

/-- The user_type tag computed from the account type. -/
def userTypeTag (userType : String) : String :=
  if userType = "microsoft" then "msa"
  else if userType = "ely" then "ely"
  else "mojang"

/-- Model of the argDiscovery regex (dollar, any braces, a greedy capture,
a closing brace): splits a character list into the part before the first
dollar, the captured identifier (up to the last closing brace), and the
suffix after it; none when the pattern does not occur. -/
def argDiscoveryMatch (l : List Char) : Option (List Char × List Char × List Char) :=
  let pre := l.takeWhile (fun c => c ≠ '$')
  match l.dropWhile (fun c => c ≠ '$') with
  | [] => none
  | _ :: r1 =>
    let body := r1.dropWhile (fun c => c = '{')
    if body.contains '}' then
      let revBody := body.reverse
      let sufRev := revBody.takeWhile (fun c => c ≠ '}')
      let idRev := (revBody.dropWhile (fun c => c ≠ '}')).tail
      some (pre, idRev.reverse, sufRev.reverse)
    else none

/-- The string branch of the main processing loop: when the argDiscovery
pattern occurs, dispatch on the captured identifier; a known identifier
replaces the whole slot (or, for the directory and launcher identifiers,
replaces the matched portion); an identifier with a null value, or an
unknown identifier, leaves the slot unchanged. -/
def mainResolveStr (c : LaunchCfg) (cp : String) (s : String) : String :=
  match argDiscoveryMatch s.data with
  | none => s
  | some (pre, ident, suf) =>
    let key := String.mk ident
    if key = "auth_player_name" then jsTrim c.displayName
    else if key = "version_name" then c.serverId
    else if key = "game_directory" then c.gameDir
    else if key = "assets_root" then pathJoin c.commonDir "assets"
    else if key = "assets_index_name" then c.assetsIndexName
    else if key = "auth_uuid" then formatUUID (jsTrim c.uuid)
    else if key = "auth_access_token" then
      match c.accessToken with | some t => t | none => s
    else if key = "user_type" then userTypeTag c.userType
    else if key = "clientid" then
      if c.userType = "microsoft" then "00000000402b5328" else s
    else if key = "auth_xuid" then
      if c.userType = "microsoft" then
        match c.xuid with
        | some x => x
        | none => stripDashesStr (jsTrim c.uuid)
      else s
    else if key = "version_type" then c.vanillaType
    else if key = "resolution_width" then c.gameWidth
    else if key = "resolution_height" then c.gameHeight
    else if key = "natives_directory" then
      String.mk pre ++ c.tempNativePath ++ String.mk suf
    else if key = "launcher_name" then
      String.mk pre ++ "Helios-Launcher" ++ String.mk suf
    else if key = "launcher_version" then
      String.mk pre ++ c.launcherVersion ++ String.mk suf
    else if key = "classpath" then cp
    else s

/-- Model of the main processing loop: a rule object whose checksum equals
its rule count is replaced in place by its (possibly feature-mutated)
value, whose entries are then processed as strings; otherwise the slot
becomes a null marker; plain strings go through the identifier switch. -/
def mainPass (c : LaunchCfg) (cp : String) : List Arg → List (Option String)
  | [] => []
  | .str s :: rest => some (mainResolveStr c cp s) :: mainPass c cp rest
  | .ruleObj rules v :: rest =>
    if checksum c rules = rules.length then
      (valueArgs (effectiveValue c rules v)).map (fun s => some (mainResolveStr c cp s))
        ++ mainPass c cp rest
    else none :: mainPass c cp rest

/-- Model of the JavaScript expression a || b on strings (empty is falsy). -/
def jsOrElse (o : Option String) (d : String) : String :=
  match o with
  | some s => if s = "" then d else s
  | none => d

/-- Model of the resolvePlaceholder helper of the post-pass sweep. -/
def resolvePlaceholder (c : LaunchCfg) (key : String) : Option String :=
  if key = "auth_uuid" then some (formatUUID (jsTrim c.uuid))
  else if key = "auth_access_token" then c.accessToken
  else if key = "auth_player_name" then some (jsOrElse c.username c.displayName)
  else if key = "user_type" then some (userTypeTag c.userType)
  else if key = "clientid" then
    if c.userType = "microsoft" then some "00000000402b5328" else none
  else if key = "auth_xuid" then
    if c.userType = "microsoft" then
      some (match c.xuid with
            | some x => x
            | none => stripDashesStr (jsTrim c.uuid))
    else none
  else none

/-- The in-string sweep (the gameArgDiscovery exec loop), guarded by a
fuel parameter for structural recursion; one unit of fuel is spent per
scan position, so any fuel at least the list length is sufficient and the
exhaustion branch is unreachable from sweepInline. Each embedded
placeholder with a non-empty, brace-free key is replaced by its resolved
value, or deleted from the string when unresolved; replacement text is
not rescanned. -/
def sweepInlineFuel (c : LaunchCfg) : Nat → List Char → List Char
  | 0, l => l
  | _ + 1, [] => []
  | fuel + 1, '$' :: '{' :: rest =>
    let key := rest.takeWhile (fun c0 => c0 ≠ '}')
    match rest.dropWhile (fun c0 => c0 ≠ '}') with
    | '}' :: rest2 =>
      if key.isEmpty then '$' :: sweepInlineFuel c fuel ('{' :: rest)
      else
        match resolvePlaceholder c (String.mk key) with
        | some r => r.data ++ sweepInlineFuel c fuel rest2
        | none => sweepInlineFuel c fuel rest2
    | [] => '$' :: sweepInlineFuel c fuel ('{' :: rest)
    | _ :: _ => '$' :: sweepInlineFuel c fuel ('{' :: rest)
  | fuel + 1, ch :: rest => ch :: sweepInlineFuel c fuel rest

/-- The in-string sweep with sufficient fuel. -/
def sweepInline (c : LaunchCfg) (l : List Char) : List Char :=
  sweepInlineFuel c l.length l

/-- The key of a standalone placeholder token (substring(2, length-1)). -/
def standaloneKey (s : String) : String :=
  String.mk ((s.data.drop 2).dropLast)

/-- Model of one entry of the post-pass placeholder sweep: null markers
pass through, a standalone placeholder token is resolved whole (becoming
null when unresolved), and strings containing an embedded placeholder go
through the in-string sweep. -/
def sweepEntry (c : LaunchCfg) : Option String → Option String
  | none => none
  | some s =>
    if jsStartsWith s "$\x7b" && jsEndsWith s "\x7d" then
      match resolvePlaceholder c (standaloneKey s) with
      | some r => some r
      | none => none
    else if containsSubstr s "$\x7b" then some (String.mk (sweepInline c s.data))
    else some s

/-- Model of the filtering pass: null entries, entries whose trim is
empty, and entries that are still whole placeholder tokens are dropped,
and each such drop also pops the previously kept entry when it begins
with the long-flag marker. The accumulator holds the kept entries in
reverse (push = cons, pop = tail), mirroring filteredArgs. -/
def filterAux (acc : List String) : List (Option String) → List String
  | [] => acc.reverse
  | e :: rest =>
    match e with
    | none =>
      match acc with
      | a :: as => if jsStartsWith a "--" then filterAux as rest else filterAux acc rest
      | [] => filterAux [] rest
    | some s =>
      if jsTrim s = "" then
        match acc with
        | a :: as => if jsStartsWith a "--" then filterAux as rest else filterAux acc rest
        | [] => filterAux [] rest
      else if jsStartsWith s "$\x7b" && jsEndsWith s "\x7d" then
        match acc with
        | a :: as => if jsStartsWith a "--" then filterAux as rest else filterAux acc rest
        | [] => filterAux [] rest
      else filterAux (s :: acc) rest

/-- The filtering pass started with an empty accumulator. -/
def filterArgs (l : List (Option String)) : List String :=
  filterAux [] l

/-- Whether the filtering pass drops an entry. -/
def removableEntry : Option String → Bool
  | none => true
  | some s => jsTrim s = "" || (jsStartsWith s "$\x7b" && jsEndsWith s "\x7d")

/-- The rule-evaluation, placeholder, sweep and filtering passes composed:
the argument engine applied to a template. -/
def argEngine (c : LaunchCfg) (cp : String) (template : List Arg) : List String :=
  filterArgs ((mainPass c cp template).map (sweepEntry c))

/-- Model of `_processAutoConnectArg`: the strings it appends. -/
def autoConnectArgs (c : LaunchCfg) : List String :=
  if c.autoConnect && c.serverAutoconnect then
    if mcVersionAtLeast "1.20" c.mcVersion then
      ["--quickPlayMultiplayer", c.hostname ++ ":" ++ c.port]
    else
      ["--server", c.hostname, "--port", c.port]
  else []

/-- Model of `ProcessBuilder.getClasspathSeparator()`. -/
def getClasspathSeparator (platform : String) : String :=
  if platform = "win32" then ";" else ":"

/-- The full builder state for 1.13+ argument construction. -/
structure PBState where
  cfg : LaunchCfg
  cpState : CPState
  vanillaJvm : List Arg
  modJvm : Option (List String)
  maxRAM : String
  minRAM : String
  jvmOpts : List String
  mainClass : String
  vanillaGame : List Arg
  modGame : List String
  modManifestId : String
  elyAuthlib : Option String

/-- The replaceAll substitutions applied to each mod-manifest JVM
argument. -/
def modJvmSub (st : PBState) (s : String) : String :=
  ((s.replace "${library_directory}" st.cpState.libPath).replace
      "${classpath_separator}" (getClasspathSeparator st.cfg.platform)).replace
    "${version_name}" st.modManifestId

/-- The Xdock icon path pushed on darwin. -/
def xdockIconPath : String :=
  pathJoin (pathJoin (pathJoin "__dirname" "..") "images") "minecraft.icns"

/-- The argument template assembled before the main processing loop:
vanilla JVM entries, substituted mod JVM entries, the darwin dock pair,
the RAM bounds, extra JVM options, the join-token property (when the
token is truthy), the ely javaagent unshifted to the front, the main
class and the vanilla game entries. -/
def assembledTemplate (st : PBState) (joinToken : Option String) : List Arg :=
  let a := st.vanillaJvm
  let a := a ++ (match st.modJvm with
    | none => []
    | some l => l.map (fun s => Arg.str (modJvmSub st s)))
  let a := a ++ (if st.cfg.platform = "darwin" then
      [Arg.str "-Xdock:name=HeliosLauncher", Arg.str ("-Xdock:icon=" ++ xdockIconPath)]
    else [])
  let a := a ++ [Arg.str ("-Xmx" ++ st.maxRAM), Arg.str ("-Xms" ++ st.minRAM)]
  let a := a ++ st.jvmOpts.map Arg.str
  let a := a ++ (match joinToken with
    | some t => if t = "" then [] else [Arg.str ("-Dfyreth.join_token=" ++ t)]
    | none => [])
  let a := if st.cfg.userType = "ely" then
      match st.elyAuthlib with
      | some p => Arg.str ("-javaagent:" ++ p ++ "=ely.by") :: a
      | none => a
    else a
  a ++ [Arg.str st.mainClass] ++ st.vanillaGame

/-- Model of Array.prototype.findIndex (minus one when absent). -/
def jsFindIndex (p : String → Bool) (l : List String) : Int :=
  match l.findIdx? p with
  | some i => (i : Int)
  | none => -1

/-- Model of splice(idx, 0, x). -/
def spliceInsert (idx : Nat) (x : String) (l : List String) : List String :=
  l.take idx ++ x :: l.drop idx

/-- Model of findJVMArgInsertIndex: before -cp when it is past the front,
else before the first non-flag token past the front, else the end. -/
def findJVMArgInsertIndex (args : List String) : Nat :=
  let cpIndex := jsFindIndex (fun a => a = "-cp") args
  if 0 < cpIndex then cpIndex.toNat
  else
    let mci := jsFindIndex (fun a => !(jsStartsWith a "-") && !(jsStartsWith a "--")) args
    if 0 < mci then mci.toNat else args.length

/-- Model of the java.library.path safety net after the filtering pass. -/
def insertLibraryPath (c : LaunchCfg) (args : List String) : List String :=
  if args.any (fun a => jsStartsWith a "-Djava.library.path=") then args
  else
    let entry := "-Djava.library.path=" ++ c.tempNativePath
    if c.platform = "darwin" then
      match args.findIdx? (fun a => a = "-XstartOnFirstThread") with
      | some xi => spliceInsert (xi + 1) entry args
      | none => spliceInsert (findJVMArgInsertIndex args) entry args
    else spliceInsert (findJVMArgInsertIndex args) entry args

/-- Model of the darwin org.lwjgl.librarypath safety net. -/
def insertLwjglPath (c : LaunchCfg) (args : List String) : List String :=
  if c.platform = "darwin" then
    if args.any (fun a => jsStartsWith a "-Dorg.lwjgl.librarypath=") then args
    else
      let entry := "-Dorg.lwjgl.librarypath=" ++ c.tempNativePath
      match args.findIdx? (fun a => jsStartsWith a "-Djava.library.path=") with
      | some li => spliceInsert (li + 1) entry args
      | none =>
        match args.findIdx? (fun a => a = "-XstartOnFirstThread") with
        | some xi => spliceInsert (xi + 1) entry args
        | none => spliceInsert (findJVMArgInsertIndex args) entry args
  else args

/-- Model of `_constructJVMArguments113`: assemble the template, run the
main loop, append the autoconnect and mod-manifest game arguments, sweep
remaining placeholders, filter, and apply the two library-path safety
nets. -/
def constructJVMArguments113 (st : PBState) (joinToken : Option String) : List String :=
  let sep := getClasspathSeparator st.cfg.platform
  let cpStr := String.intercalate sep (classpathArg st.cpState)
  let template := assembledTemplate st joinToken
  let afterMain := mainPass st.cfg cpStr template
  let afterAuto := afterMain ++ (autoConnectArgs st.cfg).map some
  let afterForge := afterAuto ++ st.modGame.map some
  let afterSweep := afterForge.map (sweepEntry st.cfg)
  let filtered := filterArgs afterSweep
  insertLwjglPath st.cfg (insertLibraryPath st.cfg filtered)

/-! ## Join-token acquisition (_fetchJoinToken) and launch sequencing -/

/-- The session fields `_fetchJoinToken` reads. -/
structure AuthUserInfo where
  uuid : String
  displayName : String

/-- The handshake HTTP response (GET /v1/handshake). -/
structure HandshakeResp where
  ok : Bool
  status : Nat
  challenge : Option String

/-- The issue HTTP response (POST /v1/issue). -/
structure IssueResp where
  ok : Bool
  status : Nat
  errorMsg : Option String
  joinToken : Option String

/-- The network requests `_fetchJoinToken` can make, in order. -/
inductive ApiRequest where
  | handshakeGet
  | issuePost
deriving DecidableEq, Repr

/-- Whether the handshake body lacks a truthy challenge. -/
def challengeMissing (hs : HandshakeResp) : Bool :=
  match hs.challenge with
  | none => true
  | some ch => ch = ""

/-- Whether the issue body lacks a truthy join_token. -/
def joinTokenMissing (issue : IssueResp) : Bool :=
  match issue.joinToken with
  | none => true
  | some t => t = ""

/-- Model of `_fetchJoinToken`, returning the requests performed and the
outcome; every error thrown inside the try block is re-thrown wrapped
with the Auth API error marker. -/
def fetchJoinTokenTr (u : AuthUserInfo) (hs : HandshakeResp) (issue : IssueResp) :
    List ApiRequest × Except String String :=
  if u.uuid = "" ∨ u.displayName = "" then
    ([], .error "Incomplete authUser data. uuid and displayName are required.")
  else if !hs.ok then
    ([.handshakeGet],
      .error ("Auth API error: Handshake failed with status " ++ toString hs.status))
  else if challengeMissing hs then
    ([.handshakeGet], .error "Auth API error: Auth API handshake did not return a challenge.")
  else if !issue.ok then
    ([.handshakeGet, .issuePost],
      .error ("Auth API error: "
        ++ jsOrElse issue.errorMsg ("Issue token failed with status " ++ toString issue.status)))
  else if joinTokenMissing issue then
    ([.handshakeGet, .issuePost],
      .error "Auth API error: Auth API did not return a join_token.")
  else
    ([.handshakeGet, .issuePost], .ok ((issue.joinToken).getD ""))

/-- The outcome of `_fetchJoinToken`. -/
def fetchJoinToken (u : AuthUserInfo) (hs : HandshakeResp) (issue : IssueResp) :
    Except String String :=
  (fetchJoinTokenTr u hs issue).2

/-- The requests `_fetchJoinToken` performs. -/
def joinTokenRequests (u : AuthUserInfo) (hs : HandshakeResp) (issue : IssueResp) :
    List ApiRequest :=
  (fetchJoinTokenTr u hs issue).1

/-- Model of the launch sequencing in `build()`: the join token is fetched
before argument construction, and a fetch failure propagates before any
arguments are built or a process is spawned. -/
def buildSpawn (st : PBState) (u : AuthUserInfo) (hs : HandshakeResp) (issue : IssueResp) :
    Except String (List String) :=
  match fetchJoinToken u hs issue with
  | .error e => .error e
  | .ok tok => .ok (constructJVMArguments113 st (some tok))

/-! ## Helper lemmas -/

theorem string_ext_of_data {a b : String} (h : a.data = b.data) : a = b := by
  cases a; cases b; cases h; rfl

theorem mk_ne_empty {l : List Char} (h : l ≠ []) : String.mk l ≠ "" := by
  intro hc
  apply h
  have := congrArg String.data hc
  simpa using this

theorem stripDashes_eq_self {l : List Char} (h : ∀ x ∈ l, x ≠ '-') :
    stripDashes l = l := by
  simp only [stripDashes]
  rw [List.filter_eq_self]
  intro a ha
  simpa using h a ha

theorem mem_stripDashes_ne {l : List Char} {x : Char} (h : x ∈ stripDashes l) : x ≠ '-' := by
  simp only [stripDashes, List.mem_filter] at h
  simpa using h.2

theorem stripDashes_groupUUID {c : List Char} (hc : ∀ x ∈ c, x ≠ '-')
    (hlen : c.length = 32) : stripDashes (groupUUID c) = c := by
  have hseg : ∀ (l : List Char), l ⊆ c → stripDashes l = l := by
    intro l hl
    exact stripDashes_eq_self (fun x hx => hc x (hl hx))
  have htake : ∀ n m, (c.drop n).take m ⊆ c := fun n m x hx =>
    List.drop_subset n c (List.take_subset m (c.drop n) hx)
  have expand : stripDashes (groupUUID c)
      = stripDashes (c.take 8) ++ (stripDashes ((c.drop 8).take 4)
        ++ (stripDashes ((c.drop 12).take 4) ++ (stripDashes ((c.drop 16).take 4)
        ++ stripDashes ((c.drop 20).take 12)))) := by
    simp [groupUUID, stripDashes, List.filter_append]
  rw [expand, hseg _ (List.take_subset 8 c), hseg _ (htake 8 4), hseg _ (htake 12 4),
    hseg _ (htake 16 4), hseg _ (htake 20 12)]
  have e1 : (c.drop 16).take 4 ++ (c.drop 20).take 12 = c.drop 16 := by
    rw [show c.drop 20 = (c.drop 16).drop 4 from (List.drop_drop 4 16 c).symm,
      ← List.take_add]
    exact List.take_of_length_le (by simp [hlen])
  have e2 : (c.drop 12).take 4 ++ c.drop 16 = c.drop 12 := by
    rw [show c.drop 16 = (c.drop 12).drop 4 from (List.drop_drop 4 12 c).symm]
    exact List.take_append_drop _ _
  have e3 : (c.drop 8).take 4 ++ c.drop 12 = c.drop 8 := by
    rw [show c.drop 12 = (c.drop 8).drop 4 from (List.drop_drop 4 8 c).symm]
    exact List.take_append_drop _ _
  rw [e1, e2, e3]
  exact List.take_append_drop _ _

/-! ## C10: formatUUID -/

/-- C10: formatUUID is idempotent; an input whose dash-stripped form has
exactly 32 characters is returned regrouped 8-4-4-4-12 (the groupUUID
regrouping), and every other input is returned unchanged. -/
theorem c10_formatUUID_idempotent_and_shape :
    (∀ u : String, formatUUID (formatUUID u) = formatUUID u)
  ∧ (∀ u : String, (stripDashes u.data).length = 32 →
      formatUUID u = String.mk (groupUUID (stripDashes u.data)))
  ∧ (∀ u : String, (stripDashes u.data).length ≠ 32 → formatUUID u = u) := by
  have h32 : ∀ u : String, (stripDashes u.data).length = 32 →
      formatUUID u = String.mk (groupUUID (stripDashes u.data)) := by
    intro u h
    by_cases h0 : u = ""
    · subst h0
      revert h
      decide
    · simp [formatUUID, h0, h]
  have hno : ∀ u : String, (stripDashes u.data).length ≠ 32 → formatUUID u = u := by
    intro u h
    by_cases h0 : u = ""
    · simp [formatUUID, h0]
    · simp [formatUUID, h0, h]
  refine ⟨?_, h32, hno⟩
  intro u
  by_cases hl : (stripDashes u.data).length = 32
  · rw [h32 u hl]
    set c := stripDashes u.data with hc
    have hall : ∀ x ∈ c, x ≠ '-' := fun x hx => mem_stripDashes_ne (hc ▸ hx)
    have hstrip : stripDashes (String.mk (groupUUID c)).data = c := by
      have : (String.mk (groupUUID c)).data = groupUUID c := rfl
      rw [this]
      exact stripDashes_groupUUID hall hl
    have hne : String.mk (groupUUID c) ≠ "" := by
      apply mk_ne_empty
      intro hcon
      have : (groupUUID c).length = 0 := by rw [hcon]; rfl
      simp [groupUUID] at this
    rw [h32 (String.mk (groupUUID c)) (by rw [hstrip]; exact hl)]
    rw [hstrip]
  · rw [hno u hl, hno u hl]

/-- Witness for C10 at a concrete 32-character dashless input and a
concrete wrong-length input. -/
theorem c10_witness :
    formatUUID "abcdef1234567890abcdef1234567890"
      = String.mk (groupUUID (stripDashes "abcdef1234567890abcdef1234567890".data))
  ∧ formatUUID "xyz" = "xyz" :=
  ⟨c10_formatUUID_idempotent_and_shape.2.1 "abcdef1234567890abcdef1234567890" (by decide),
   c10_formatUUID_idempotent_and_shape.2.2 "xyz" (by decide)⟩

/-! ## C3: normalizeArchitecture round trip -/

/-- C3: for every platform and a compact-form architecture (arm64 or
x64), converting to manifest form and back returns the original value;
on win32 the x64 value maps to itself in both directions. -/
theorem c3_normalizeArchitecture_roundtrip :
    (∀ platform arch : String, (arch = "arm64" ∨ arch = "x64") →
      normalizeArchitecture (normalizeArchitecture arch platform true) platform false = arch)
  ∧ normalizeArchitecture "x64" "win32" true = "x64"
  ∧ normalizeArchitecture "x64" "win32" false = "x64" := by
  refine ⟨?_, by decide, by decide⟩
  intro platform arch h
  rcases h with rfl | rfl <;>
    · simp only [normalizeArchitecture]
      by_cases h1 : platform = "darwin" ∨ platform = "linux" <;>
        by_cases h2 : platform = "win32" <;>
          simp [h1, h2]

/-- Witness for C3 at linux/arm64. -/
theorem c3_witness :
    normalizeArchitecture (normalizeArchitecture "arm64" "linux" true) "linux" false
      = "arm64" :=
  c3_normalizeArchitecture_roundtrip.1 "linux" "arm64" (Or.inl rfl)

/-! ## C4: mod enablement and configuration resolution -/

/-- C4 example: a required sub-module with no children. -/
def c4SubReq : Module := .mk .ForgeMod "g:subreq" true true "p3" true []

/-- C4 example: a child of the optional disabled sub-module. -/
def c4SubChild : Module := .mk .ForgeMod "g:child" true true "p2" true []

/-- C4 example: an optional sub-module disabled by its stored boolean. -/
def c4SubOpt : Module := .mk .ForgeMod "g:subopt" false true "p1" true [c4SubChild]

/-- C4 example: the required top-level mod with the two sub-modules. -/
def c4Top : Module := .mk .ForgeMod "g:top" true true "p0" true [c4SubOpt, c4SubReq]

/-- C4 example: stored configuration disabling the optional sub-module. -/
def c4Cfg : CfgMap := [("g:top", .obj none (some [("g:subopt", .b false)]))]

/-- C4: isModEnabled agrees with the spec's enablement policy; a disabled
optional mod is skipped together with its whole sub-tree by
resolveModConfiguration; and on the example tree (required top-level mod
with one optional-disabled and one required sub-module) the result is
exactly the required sub-module followed by the top-level mod. -/
theorem c4_mod_enablement :
    (∀ (modCfg : Option ModCfgVal) (required : Option Required),
      isModEnabled modCfg required = specModEnabled modCfg required)
  ∧ (∀ (cfg : CfgMap) (t : MType) (i : String) (rd : Bool) (p : String) (f : Bool)
      (subs : List Module) (rest : List Module),
      relevantModType t = true →
      isModEnabled (cfgLookup cfg i) (some ⟨false, rd⟩) = false →
        resolveModConfiguration (some cfg) (.mk t i false rd p f subs :: rest)
          = resolveModConfiguration (some cfg) rest)
  ∧ resolveModConfiguration (some c4Cfg) [c4Top] = some ([c4SubReq, c4Top], []) := by
  refine ⟨?_, ?_, by rfl⟩
  · intro modCfg required
    match modCfg with
    | none => cases required <;> rfl
    | some (.b v) => cases v <;> rfl
    | some (.obj value m) => cases value with
      | none => rfl
      | some b => cases b <;> rfl
  · intro cfg t i rd p f subs rest hrel he
    have hh : resolveModHead (some cfg) (.mk t i false rd p f subs) = some ([], []) := by
      simp only [resolveModHead, hrel, if_true]
      simp [he]
    simp only [resolveModConfiguration, hh, Option.some_bind]
    cases hres : resolveModConfiguration (some cfg) rest with
    | none => rfl
    | some r => simp

/-- Witness for C4 at a concrete disabled optional module. -/
theorem c4_witness :
    isModEnabled (some (.b false)) none = specModEnabled (some (.b false)) none
  ∧ resolveModConfiguration (some [("g:m", ModCfgVal.b false)])
      [.mk .ForgeMod "g:m" false true "p" true []]
      = resolveModConfiguration (some [("g:m", ModCfgVal.b false)]) [] :=
  ⟨c4_mod_enablement.1 (some (.b false)) none,
   c4_mod_enablement.2.1 [("g:m", ModCfgVal.b false)] .ForgeMod "g:m" true "p" true [] []
     (by decide) (by decide)⟩

/-! ## C2: classpath merge law -/

/-- A modelled JavaScript object has pairwise distinct keys. -/
def uniqueKeys (m : List (String × String)) : Prop :=
  m.Pairwise (fun p q => p.1 ≠ q.1)

theorem mapLookup_map_overwrite (m : List (String × String)) (x k v : String)
    (hx : x ≠ k) :
    mapLookup (m.map fun p => if p.1 = x then (x, v) else p) k = mapLookup m k := by
  induction m with
  | nil => rfl
  | cons a as ih =>
    by_cases ha : a.1 = x
    · have hxk : ¬ ((x : String) = k) := hx
      have hak : ¬ (a.1 = k) := by rw [ha]; exact hxk
      simp only [List.map_cons, if_pos ha]
      simp only [mapLookup] at *
      rw [List.find?_cons_of_neg _ (by simpa using hxk),
        List.find?_cons_of_neg _ (by simpa using hak)]
      exact ih
    · simp only [List.map_cons, if_neg ha]
      by_cases hak : a.1 = k
      · simp [mapLookup, List.find?_cons, hak]
      · simp only [mapLookup] at *
        rw [List.find?_cons_of_neg _ (by simpa using hak),
          List.find?_cons_of_neg _ (by simpa using hak)]
        exact ih

theorem mapLookup_jsInsert_self (m : List (String × String)) (k v : String) :
    mapLookup (jsInsert m k v) k = some v := by
  unfold jsInsert
  by_cases h : m.any (fun p => p.1 = k)
  · rw [if_pos h]
    induction m with
    | nil => simp at h
    | cons a as ih =>
      by_cases ha : a.1 = k
      · simp [mapLookup, List.find?_cons, ha]
      · simp only [List.map_cons, if_neg ha]
        simp only [mapLookup]
        rw [List.find?_cons_of_neg _ (by simpa using ha)]
        apply ih
        simp only [List.any_cons, ha] at h
        simpa using h
  · rw [if_neg h]
    have hm : (m.find? fun p => decide (p.1 = k)) = none := by
      rw [List.find?_eq_none]
      intro p hp
      simp only [List.any_eq_true] at h
      simpa using fun hc => h ⟨p, hp, by simpa using hc⟩
    simp [mapLookup, List.find?_append, hm, List.find?_cons]

theorem mapLookup_jsInsert_ne (m : List (String × String)) (x k v : String)
    (hx : x ≠ k) : mapLookup (jsInsert m x v) k = mapLookup m k := by
  unfold jsInsert
  by_cases h : m.any (fun p => p.1 = x)
  · rw [if_pos h]
    exact mapLookup_map_overwrite m x k v hx
  · rw [if_neg h]
    have hxk : ¬ ((x : String) = k) := hx
    simp [mapLookup, List.find?_append, List.find?_cons, hxk]

theorem mapLookup_jsMerge_not_mem (a b : List (String × String)) (k : String)
    (hb : ∀ p ∈ b, p.1 ≠ k) : mapLookup (jsMerge a b) k = mapLookup a k := by
  induction b generalizing a with
  | nil => rfl
  | cons p bs ih =>
    show mapLookup (jsMerge (jsInsert a p.1 p.2) bs) k = mapLookup a k
    rw [ih (jsInsert a p.1 p.2) (fun q hq => hb q (List.mem_cons_of_mem _ hq))]
    exact mapLookup_jsInsert_ne a p.1 k p.2 (hb p (List.mem_cons_self _ _))

theorem mapLookup_jsMerge_right (a b : List (String × String)) (k pb : String)
    (hb : uniqueKeys b) (h : mapLookup b k = some pb) :
    mapLookup (jsMerge a b) k = some pb := by
  induction b generalizing a with
  | nil => simp [mapLookup, List.find?] at h
  | cons p bs ih =>
    show mapLookup (jsMerge (jsInsert a p.1 p.2) bs) k = some pb
    by_cases hpk : p.1 = k
    · have hval : pb = p.2 := by
        simp [mapLookup, List.find?_cons, hpk] at h
        exact h.symm
      have hnb : ∀ q ∈ bs, q.1 ≠ k := by
        intro q hq
        have hne := (List.pairwise_cons.mp hb).1 q hq
        rw [← hpk]
        exact fun hc => hne (by rw [hc])
      rw [mapLookup_jsMerge_not_mem _ _ _ hnb, hval, ← hpk]
      exact mapLookup_jsInsert_self a p.1 p.2
    · have h' : mapLookup bs k = some pb := by
        simp only [mapLookup] at h ⊢
        rwa [List.find?_cons_of_neg _ (by simpa using hpk)] at h
      exact ih (jsInsert a p.1 p.2) (List.pairwise_cons.mp hb).2 h'

theorem jsInsert_uniqueKeys {m : List (String × String)} (hm : uniqueKeys m)
    (k v : String) : uniqueKeys (jsInsert m k v) := by
  unfold jsInsert
  by_cases h : m.any (fun p => p.1 = k)
  · rw [if_pos h]
    unfold uniqueKeys at *
    rw [List.pairwise_map]
    have hkey : ∀ p : String × String,
        (if p.1 = k then ((k, v) : String × String) else p).1 = p.1 := by
      intro p
      by_cases hp : p.1 = k <;> simp [hp]
    exact hm.imp (fun {p q} hpq => by
      simp only [hkey]
      exact hpq)
  · rw [if_neg h]
    unfold uniqueKeys
    rw [List.pairwise_append]
    refine ⟨hm, List.pairwise_singleton _ _, ?_⟩
    intro p hp q hq
    simp only [List.mem_singleton] at hq
    subst hq
    simp only [List.any_eq_true] at h
    simpa using fun hc => h ⟨p, hp, by simpa using hc⟩

theorem jsMerge_uniqueKeys {a : List (String × String)} (ha : uniqueKeys a)
    (b : List (String × String)) : uniqueKeys (jsMerge a b) := by
  induction b generalizing a with
  | nil => exact ha
  | cons p bs ih => exact ih (jsInsert_uniqueKeys ha p.1 p.2)

theorem countP_key_eq_one (m : List (String × String)) (k pb : String)
    (hm : uniqueKeys m) (h : mapLookup m k = some pb) :
    m.countP (fun p => p.1 = k) = 1 := by
  induction m with
  | nil => simp [mapLookup, List.find?] at h
  | cons p ps ih =>
    by_cases hpk : p.1 = k
    · have hz : ps.countP (fun q => q.1 = k) = 0 := by
        rw [List.countP_eq_zero]
        intro q hq
        have hne := (List.pairwise_cons.mp hm).1 q hq
        rw [← hpk]
        simpa using fun hc => hne (by rw [hc])
      rw [List.countP_cons_of_pos _ _ (by simpa using hpk), hz]
    · have h' : mapLookup ps k = some pb := by
        simp only [mapLookup] at h ⊢
        rwa [List.find?_cons_of_neg _ (by simpa using hpk)] at h
      rw [List.countP_cons_of_neg _ _ (by simpa using hpk)]
      exact ih (List.pairwise_cons.mp hm).2 h'

/-- C2 example state: manifest guava 18.0, server-module guava 21.0. -/
def c2GuavaState : CPState :=
  { mcVersion := "1.12.2", usingFabricLoader := false, usingLiteLoader := false,
    llPath := "", commonDir := "cd", libPath := "lp", vanillaId := "1.12.2",
    manifestLibraries := [⟨"com.google.guava:guava:18.0", true, false,
      "com/google/guava/guava/18.0/guava-18.0.jar"⟩],
    modules := [.mk .Library "com.google.guava:guava" true true
      "lp/com/google/guava/guava/21.0/guava-21.0.jar" true []] }

/-- C2: the classpath merge resolves a shared identity to the
server/module-declared path and keeps exactly one entry per identity;
identity is the versionless maven pair; on the guava example the
classpath holds the server-declared 21.0 path and not the manifest 18.0
path. -/
theorem c2_classpath_override :
    (∀ (a b : List (String × String)) (k pb : String),
      uniqueKeys a → uniqueKeys b → mapLookup b k = some pb →
        mapLookup (jsMerge a b) k = some pb
          ∧ (jsMerge a b).countP (fun p => p.1 = k) = 1)
  ∧ versionlessMavenId "com.google.guava:guava:18.0" = "com.google.guava:guava"
  ∧ versionlessMavenId "com.google.guava:guava:21.0" = "com.google.guava:guava"
  ∧ classpathArg c2GuavaState
      = ["cd/versions/1.12.2/1.12.2.jar", "lp/com/google/guava/guava/21.0/guava-21.0.jar"]
  ∧ "lp/com/google/guava/guava/18.0/guava-18.0.jar" ∉ classpathArg c2GuavaState := by
  refine ⟨?_, by decide, by decide, by decide, by decide⟩
  intro a b k pb ha hb h
  have hl := mapLookup_jsMerge_right a b k pb hb h
  refine ⟨hl, ?_⟩
  exact countP_key_eq_one _ k pb (jsMerge_uniqueKeys ha b) hl

/-- Witness for C2 at concrete one-entry maps. -/
theorem c2_witness :
    mapLookup (jsMerge [("g", "p18")] [("g", "p21")]) "g" = some "p21"
  ∧ (jsMerge [("g", "p18")] [("g", "p21")]).countP (fun p => p.1 = "g") = 1 :=
  c2_classpath_override.1 [("g", "p18")] [("g", "p21")] "g" "p21"
    (List.pairwise_singleton _ _) (List.pairwise_singleton _ _) (by decide)

/-! ## C5: version jar placement in classpathArg -/

/-- C5 counterexample state: Minecraft 1.17 with the Fabric loader
active and no libraries. -/
def c5FabricState : CPState :=
  { mcVersion := "1.17", usingFabricLoader := true, usingLiteLoader := false,
    llPath := "", commonDir := "cd", libPath := "lp", vanillaId := "1.17",
    manifestLibraries := [], modules := [] }

/-- C5 counterexample: on a 1.17 manifest with the Fabric loader active,
the claim says the version jar is omitted, but classpathArg places it
first. -/
theorem c5_counterexample :
    mcVersionAtLeast "1.17" c5FabricState.mcVersion = true
  ∧ c5FabricState.usingFabricLoader = true
  ∧ (classpathArg c5FabricState).head? = some (versionJarPath c5FabricState) := by
  decide

/-- C5 amended: the version jar is placed first whenever the version is
below 1.17 or the Fabric loader is active; it is omitted exactly when the
version is at least 1.17 and Fabric is not active, in which case the
classpath is just the liteloader jar (when active) followed by the merged
library paths. -/
theorem c5_version_jar_amended :
    ∀ s : CPState,
      ((!(mcVersionAtLeast "1.17" s.mcVersion) || s.usingFabricLoader) = true →
        (classpathArg s).head? = some (processClassPathEntry (versionJarPath s)))
    ∧ ((mcVersionAtLeast "1.17" s.mcVersion && !s.usingFabricLoader) = true →
        classpathArg s =
          ((if s.usingLiteLoader then [s.llPath] else [])
            ++ (jsMerge (resolveMojangLibsMap s.libPath s.manifestLibraries)
                  (resolveServerLibraries s.modules)).map (fun p => p.2)).map
            processClassPathEntry) := by
  intro s
  constructor
  · intro h
    simp [classpathArg, h]
  · intro h
    have h1 : (!(mcVersionAtLeast "1.17" s.mcVersion) || s.usingFabricLoader) = false := by
      simp only [Bool.and_eq_true, Bool.not_eq_true'] at h
      simp [h.1, h.2]
    simp [classpathArg, h1]

/-- Witness for C5 amended at the counterexample state and at a plain
Forge 1.17 state. -/
theorem c5_amended_witness :
    (classpathArg c5FabricState).head? = some (processClassPathEntry (versionJarPath c5FabricState))
  ∧ classpathArg { c5FabricState with usingFabricLoader := false }
      = (([] : List String)
          ++ (jsMerge (resolveMojangLibsMap "lp" []) (resolveServerLibraries [])).map
            (fun p => p.2)).map processClassPathEntry :=
  ⟨(c5_version_jar_amended c5FabricState).1 (by decide),
   ((c5_version_jar_amended { c5FabricState with usingFabricLoader := false }).2 (by decide)).trans
     (by decide)⟩

/-! ## C7: native archive extraction -/

/-- C7 example zip entries: a metadata file and a nested native. -/
def c7Entries : List ZipEntry :=
  [⟨"META-INF/MANIFEST.MF", false⟩, ⟨"a/b.so", false⟩]

/-- C7 counterexample: in the legacy (per-OS natives map) format the
directory prefix is not stripped — the surviving entry is written under
a/b.so, not b.so as the claim states. -/
theorem c7_counterexample :
    legacyExtractNames ["META-INF/"] c7Entries = ["a/b.so"]
  ∧ "b.so" ∉ legacyExtractNames ["META-INF/"] c7Entries := by
  decide

/-- C7 amended: entries matching the exclusion list are skipped in both
formats; the modern (natives-in-name) format also skips directory entries
and strips directory prefixes during write, while the legacy format
writes each surviving entry under its full entry name — so on the example
zip the modern format writes b.so and the legacy format writes a/b.so. -/
theorem c7_extraction_amended :
    modernExtractNames ["META-INF/"] c7Entries = ["b.so"]
  ∧ legacyExtractNames ["META-INF/"] c7Entries = ["a/b.so"]
  ∧ (∀ (ex : List String) (es : List ZipEntry),
      legacyExtractNames ex es
        = (es.filter (fun z => !shouldExclude ex z.entryName)).map
            (fun z => writtenRelative z.entryName))
  ∧ (∀ (ex : List String) (es : List ZipEntry),
      modernExtractNames ex es
        = (es.filter (fun z => !z.isDirectory && !shouldExclude ex z.entryName)).map
            (fun z => writtenRelative (modernExtractName z.entryName))) := by
  refine ⟨by decide, by decide, ?_, ?_⟩
  · intro ex es
    induction es with
    | nil => rfl
    | cons z zs ih =>
      by_cases hz : shouldExclude ex z.entryName
      · simp [legacyExtractNames, List.filterMap_cons, hz, List.filter_cons] at *
        exact ih
      · simp [legacyExtractNames, List.filterMap_cons, hz, List.filter_cons] at *
        exact ih
  · intro ex es
    induction es with
    | nil => rfl
    | cons z zs ih =>
      by_cases hd : z.isDirectory
      · simp [modernExtractNames, List.filterMap_cons, hd, List.filter_cons] at *
        exact ih
      · by_cases hz : shouldExclude ex z.entryName
        · simp [modernExtractNames, List.filterMap_cons, hd, hz, List.filter_cons] at *
          exact ih
        · simp [modernExtractNames, List.filterMap_cons, hd, hz, List.filter_cons] at *
          exact ih

/-! ## C1: the vector produced by constructJVMArguments -/

/-- A clean final-vector entry: a non-blank string that is not a whole
unresolved placeholder token. (Nulls and rule objects cannot occur at
all: the engine's later passes operate on optional strings only, and the
filtering pass returns plain strings.) -/
def cleanArg (s : String) : Prop :=
  jsTrim s ≠ "" ∧ (jsStartsWith s "$\x7b" && jsEndsWith s "\x7d") = false

theorem filterAux_clean (l : List (Option String)) :
    ∀ (acc : List String), (∀ x ∈ acc, cleanArg x) →
      ∀ s ∈ filterAux acc l, cleanArg s := by
  induction l with
  | nil =>
    intro acc hacc s hs
    simp only [filterAux, List.mem_reverse] at hs
    exact hacc s hs
  | cons e rest ih =>
    intro acc hacc s hs
    cases e with
    | none =>
      cases acc with
      | nil => exact ih [] (by simp) s hs
      | cons a as =>
        simp only [filterAux] at hs
        by_cases hflag : jsStartsWith a "--" = true
        · rw [if_pos hflag] at hs
          exact ih as (fun x hx => hacc x (List.mem_cons_of_mem _ hx)) s hs
        · rw [if_neg hflag] at hs
          exact ih (a :: as) hacc s hs
    | some str =>
      by_cases h1 : jsTrim str = ""
      · cases acc with
        | nil =>
          simp only [filterAux, if_pos h1] at hs
          exact ih [] (by simp) s hs
        | cons a as =>
          simp only [filterAux, if_pos h1] at hs
          by_cases hflag : jsStartsWith a "--" = true
          · rw [if_pos hflag] at hs
            exact ih as (fun x hx => hacc x (List.mem_cons_of_mem _ hx)) s hs
          · rw [if_neg hflag] at hs
            exact ih (a :: as) hacc s hs
      · by_cases h2 : (jsStartsWith str "$\x7b" && jsEndsWith str "\x7d") = true
        · cases acc with
          | nil =>
            simp only [filterAux, if_neg h1, if_pos h2] at hs
            exact ih [] (by simp) s hs
          | cons a as =>
            simp only [filterAux, if_neg h1, if_pos h2] at hs
            by_cases hflag : jsStartsWith a "--" = true
            · rw [if_pos hflag] at hs
              exact ih as (fun x hx => hacc x (List.mem_cons_of_mem _ hx)) s hs
            · rw [if_neg hflag] at hs
              exact ih (a :: as) hacc s hs
        · simp only [filterAux, if_neg h1, if_neg h2] at hs
          refine ih (str :: acc) ?_ s hs
          intro x hx
          rcases List.mem_cons.mp hx with rfl | hx
          · exact ⟨h1, by simpa using h2⟩
          · exact hacc x hx

theorem mem_spliceInsert {x s : String} {n : Nat} {l : List String}
    (h : s ∈ spliceInsert n x l) : s = x ∨ s ∈ l := by
  simp only [spliceInsert, List.mem_append, List.mem_cons] at h
  rcases h with h | h | h
  · exact Or.inr (List.take_subset _ _ h)
  · exact Or.inl h
  · exact Or.inr (List.drop_subset _ _ h)

theorem dropWhile_ne_nil_of_mem {p : Char → Bool} {l : List Char} {x : Char}
    (hx : x ∈ l) (hpx : p x = false) : l.dropWhile p ≠ [] := by
  induction l with
  | nil => cases hx
  | cons a as ih =>
    by_cases ha : p a = true
    · rw [List.dropWhile_cons_of_pos ha]
      rcases List.mem_cons.mp hx with rfl | hmem
      · rw [hpx] at ha
        cases ha
      · exact ih hmem
    · rw [List.dropWhile_cons_of_neg ha]
      simp

theorem cleanArg_mk_dash (l : List Char) : cleanArg (String.mk ('-' :: l)) := by
  constructor
  · show jsTrim (String.mk ('-' :: l)) ≠ ""
    have heq : jsTrim (String.mk ('-' :: l)) = String.mk (jsTrimList ('-' :: l)) := rfl
    rw [heq]
    apply mk_ne_empty
    unfold jsTrimList
    have hd : ('-' :: l).dropWhile Char.isWhitespace = '-' :: l := by
      rw [List.dropWhile_cons_of_neg]
      decide
    rw [hd]
    have hne : (('-' :: l).reverse).dropWhile Char.isWhitespace ≠ [] := by
      apply dropWhile_ne_nil_of_mem (x := '-')
      · rw [List.mem_reverse]
        exact List.mem_cons_self _ _
      · decide
    simpa using hne
  · have hpre : jsStartsWith (String.mk ('-' :: l)) "$\x7b" = false := by
      show ("$\x7b".data.isPrefixOf ('-' :: l)) = false
      have : "$\x7b".data = ['$', '{'] := rfl
      rw [this]
      simp [List.isPrefixOf]
    rw [hpre]
    rfl

theorem insertLibraryPath_clean {c : LaunchCfg} {args : List String}
    (h : ∀ x ∈ args, cleanArg x) : ∀ s ∈ insertLibraryPath c args, cleanArg s := by
  intro s hs
  have hent : cleanArg ("-Djava.library.path=" ++ c.tempNativePath) := by
    have hd : ("-Djava.library.path=" ++ c.tempNativePath)
        = String.mk ('-' :: ("Djava.library.path=".data ++ c.tempNativePath.data)) := by
      apply string_ext_of_data
      rw [String.data_append]
      rfl
    rw [hd]
    exact cleanArg_mk_dash _
  unfold insertLibraryPath at hs
  split at hs
  · exact h s hs
  · split at hs
    · split at hs
      · rcases mem_spliceInsert hs with rfl | hmem
        · exact hent
        · exact h s hmem
      · rcases mem_spliceInsert hs with rfl | hmem
        · exact hent
        · exact h s hmem
    · rcases mem_spliceInsert hs with rfl | hmem
      · exact hent
      · exact h s hmem

theorem insertLwjglPath_clean {c : LaunchCfg} {args : List String}
    (h : ∀ x ∈ args, cleanArg x) : ∀ s ∈ insertLwjglPath c args, cleanArg s := by
  intro s hs
  have hent : cleanArg ("-Dorg.lwjgl.librarypath=" ++ c.tempNativePath) := by
    have hd : ("-Dorg.lwjgl.librarypath=" ++ c.tempNativePath)
        = String.mk ('-' :: ("Dorg.lwjgl.librarypath=".data ++ c.tempNativePath.data)) := by
      apply string_ext_of_data
      rw [String.data_append]
      rfl
    rw [hd]
    exact cleanArg_mk_dash _
  unfold insertLwjglPath at hs
  split at hs
  · split at hs
    · exact h s hs
    · split at hs
      · rcases mem_spliceInsert hs with rfl | hmem
        · exact hent
        · exact h s hmem
      · split at hs
        · rcases mem_spliceInsert hs with rfl | hmem
          · exact hent
          · exact h s hmem
        · rcases mem_spliceInsert hs with rfl | hmem
          · exact hent
          · exact h s hmem
  · exact h s hs

/-- C1: every entry of the vector returned by constructJVMArguments is a
string that is neither blank nor a whole unresolved placeholder token
(null markers and rule objects having been eliminated by the earlier
passes, whose output type is optional strings); and whenever the
filtering pass drops a removable entry whose most recently kept
predecessor begins with the long-flag marker, that predecessor is
removed as well. -/
theorem c1_argument_vector_clean :
    (∀ (st : PBState) (jt : Option String) (s : String),
        s ∈ constructJVMArguments113 st jt →
          jsTrim s ≠ "" ∧ (jsStartsWith s "$\x7b" && jsEndsWith s "\x7d") = false)
  ∧ (∀ (acc : List String) (flag : String) (bad : Option String)
        (rest : List (Option String)),
        jsStartsWith flag "--" = true → removableEntry bad = true →
          filterAux (flag :: acc) (bad :: rest) = filterAux acc rest) := by
  constructor
  · intro st jt s hs
    simp only [constructJVMArguments113] at hs
    have h0 : ∀ x ∈ filterArgs
        ((mainPass st.cfg
            (String.intercalate (getClasspathSeparator st.cfg.platform)
              (classpathArg st.cpState)) (assembledTemplate st jt)
          ++ (autoConnectArgs st.cfg).map some
          ++ st.modGame.map some).map (sweepEntry st.cfg)), cleanArg x := by
      intro x hx
      exact filterAux_clean _ [] (by simp) x hx
    exact insertLwjglPath_clean (insertLibraryPath_clean h0) s hs
  · intro acc flag bad rest hflag hrem
    cases bad with
    | none => simp [filterAux, hflag]
    | some str =>
      simp only [removableEntry, Bool.or_eq_true, decide_eq_true_eq] at hrem
      by_cases h1 : jsTrim str = ""
      · simp [filterAux, hflag, h1]
      · rcases hrem with h1' | h2
        · exact absurd h1' h1
        · simp [filterAux, hflag, h1, h2]

/-- C1 witness launch environment. -/
def c1WitCfg : LaunchCfg :=
  { platform := "linux", mojangOS := "linux", osReleaseMatches := (fun _ => false),
    fullscreen := false, displayName := "Alice", uuid := "u", accessToken := none,
    username := none, userType := "mojang", xuid := none, serverId := "srv",
    gameDir := "gd", commonDir := "cd", assetsIndexName := "17",
    vanillaType := "release", gameWidth := "1280", gameHeight := "720",
    tempNativePath := "tmpn", launcherVersion := "2.0", autoConnect := false,
    serverAutoconnect := false, mcVersion := "1.20.1", hostname := "h", port := "25565" }

/-- C1 witness classpath state. -/
def c1WitCp : CPState :=
  { mcVersion := "1.20.1", usingFabricLoader := false, usingLiteLoader := false,
    llPath := "", commonDir := "cd", libPath := "lp", vanillaId := "1.20.1",
    manifestLibraries := [], modules := [] }

/-- C1 witness state: a minimal launch state. -/
def c1WitState : PBState :=
  { cfg := c1WitCfg, cpState := c1WitCp,
    vanillaJvm := [], modJvm := none, maxRAM := "4G", minRAM := "2G", jvmOpts := [],
    mainClass := "Main", vanillaGame := [], modGame := [], modManifestId := "m",
    elyAuthlib := none }

/-- Witness for C1 at a concrete member of a concrete constructed vector
and at a concrete flag pop. -/
theorem c1_witness :
    (jsTrim "Main" ≠ "" ∧ (jsStartsWith "Main" "$\x7b" && jsEndsWith "Main" "\x7d") = false)
  ∧ filterAux ["--flag"] [none] = filterAux [] [] :=
  ⟨c1_argument_vector_clean.1 c1WitState none "Main" (by decide),
   c1_argument_vector_clean.2 [] "--flag" none [] (by decide) (by decide)⟩

/-! ## C6: conditional-rule entries -/

/-- C6 example host: a non-osx (linux) host. -/
def c6Linux : LaunchCfg :=
  { platform := "linux", mojangOS := "linux", osReleaseMatches := (fun _ => false),
    fullscreen := false, displayName := "Alice", uuid := "u", accessToken := none,
    username := none, userType := "mojang", xuid := none, serverId := "srv",
    gameDir := "gd", commonDir := "cd", assetsIndexName := "17",
    vanillaType := "release", gameWidth := "1280", gameHeight := "720",
    tempNativePath := "tmpn", launcherVersion := "2.0", autoConnect := false,
    serverAutoconnect := false, mcVersion := "1.20.1", hostname := "h", port := "25565" }

/-- C6 example host: an osx host. -/
def c6Osx : LaunchCfg :=
  { c6Linux with mojangOS := "osx" }

/-- C6 example template: a RAM token followed by an osx-only allow rule. -/
def c6Template : List Arg :=
  [.str "-Xmx${ram}",
   .ruleObj [.osRule ⟨"osx", none⟩ "allow"] (.vstr "-XstartOnFirstThread")]

/-- C6: a conditional-rule entry whose allow count falls short of its rule
count becomes a null marker and is dropped entirely from the engine's
output; one whose allow count equals the rule count is replaced in place
by its value; on the example template evaluated on a linux host the rule
entry is dropped and the preceding non-long-flag token survives (with its
unresolved ram placeholder deleted by the sweep), while on an osx host
the value is inserted. -/
theorem c6_rule_entry_resolution :
    (∀ (c : LaunchCfg) (cp : String) (rules : List MRule) (v : ArgValue)
        (rest : List Arg),
      checksum c rules ≠ rules.length →
        argEngine c cp (.ruleObj rules v :: rest) = argEngine c cp rest)
  ∧ (∀ (c : LaunchCfg) (cp : String) (rules : List MRule) (v : ArgValue)
        (rest : List Arg),
      checksum c rules = rules.length →
        mainPass c cp (.ruleObj rules v :: rest)
          = (valueArgs (effectiveValue c rules v)).map
              (fun s => some (mainResolveStr c cp s))
            ++ mainPass c cp rest)
  ∧ argEngine c6Linux "" c6Template = ["-Xmx"]
  ∧ argEngine c6Osx "" c6Template = ["-Xmx", "-XstartOnFirstThread"] := by
  refine ⟨?_, ?_, by decide, by decide⟩
  · intro c cp rules v rest h
    show filterArgs ((mainPass c cp (.ruleObj rules v :: rest)).map (sweepEntry c)) = _
    rw [show mainPass c cp (.ruleObj rules v :: rest) = none :: mainPass c cp rest by
      simp [mainPass, h]]
    rfl
  · intro c cp rules v rest h
    simp [mainPass, h]

/-- Witness for C6 at the concrete example template on the linux host. -/
theorem c6_witness :
    argEngine c6Linux ""
        [Arg.ruleObj [MRule.osRule ⟨"osx", none⟩ "allow"] (ArgValue.vstr "-XstartOnFirstThread")]
      = argEngine c6Linux "" [] :=
  c6_rule_entry_resolution.1 c6Linux ""
    [MRule.osRule ⟨"osx", none⟩ "allow"] (ArgValue.vstr "-XstartOnFirstThread") []
    (by decide)

/-! ## C8: construction with a missing access token -/

/-- C8: with no stored access token, the sweep resolver yields none for
auth_access_token, a standalone auth_access_token placeholder becomes a
null marker, and the engine still returns a vector — on the
flag-and-placeholder template both entries are dropped and construction
completes without any exception path. -/
theorem c8_missing_access_token :
    ∀ (c : LaunchCfg) (cp : String), c.accessToken = none →
        resolvePlaceholder c "auth_access_token" = none
      ∧ sweepEntry c (some "${auth_access_token}") = none
      ∧ argEngine c cp [.str "--accessToken", .str "${auth_access_token}"] = [] := by
  intro c cp h
  have h1 : resolvePlaceholder c "auth_access_token" = none := by
    have : resolvePlaceholder c "auth_access_token" = c.accessToken := rfl
    rw [this, h]
  have h2 : sweepEntry c (some "${auth_access_token}") = none := by
    have e : sweepEntry c (some "${auth_access_token}")
        = match resolvePlaceholder c "auth_access_token" with
          | some r => some r
          | none => none := rfl
    rw [e, h1]
  refine ⟨h1, h2, ?_⟩
  have hr : mainResolveStr c cp "${auth_access_token}" = "${auth_access_token}" := by
    have e : mainResolveStr c cp "${auth_access_token}"
        = match c.accessToken with
          | some t => t
          | none => "${auth_access_token}" := rfl
    rw [e, h]
  calc argEngine c cp [.str "--accessToken", .str "${auth_access_token}"]
      = filterArgs [some "--accessToken",
          sweepEntry c (some (mainResolveStr c cp "${auth_access_token}"))] := rfl
    _ = filterArgs [some "--accessToken", none] := by rw [hr, h2]
    _ = [] := rfl

/-- C8 witness configuration: a session with no access token. -/
def c8Cfg : LaunchCfg :=
  { c6Linux with accessToken := none }

/-- Witness for C8 at the concrete token-less configuration. -/
theorem c8_witness :
    resolvePlaceholder c8Cfg "auth_access_token" = none
  ∧ sweepEntry c8Cfg (some "${auth_access_token}") = none
  ∧ argEngine c8Cfg "" [.str "--accessToken", .str "${auth_access_token}"] = [] :=
  c8_missing_access_token c8Cfg "" rfl

/-! ## C9: join-token acquisition failures -/

/-- C9: with a well-formed session, every response in which the handshake
status is non-success, the challenge is missing, the issue status is
non-success, or the join_token is missing makes _fetchJoinToken throw an
error wrapped with the Auth API marker; the launch sequencing then aborts
before any argument vector is produced or process spawned; and the
handshake GET always precedes the issue POST, which is only sent after a
successful handshake. -/
theorem c9_join_token_failures :
    ∀ (u : AuthUserInfo) (hs : HandshakeResp) (issue : IssueResp),
      u.uuid ≠ "" → u.displayName ≠ "" →
      (hs.ok = false ∨ challengeMissing hs = true ∨ issue.ok = false
        ∨ joinTokenMissing issue = true) →
        (∃ msg, fetchJoinToken u hs issue = Except.error ("Auth API error: " ++ msg))
      ∧ (∀ st : PBState, ∃ e, buildSpawn st u hs issue = Except.error e)
      ∧ joinTokenRequests u hs issue
          = ApiRequest.handshakeGet ::
              (if hs.ok && !challengeMissing hs then [ApiRequest.issuePost] else []) := by
  intro u hs issue hu hd hfail
  have hne : ¬(u.uuid = "" ∨ u.displayName = "") := by
    rintro (h | h)
    · exact hu h
    · exact hd h
  have hmain : (∃ msg, fetchJoinToken u hs issue = Except.error ("Auth API error: " ++ msg))
      ∧ joinTokenRequests u hs issue
          = ApiRequest.handshakeGet ::
              (if hs.ok && !challengeMissing hs then [ApiRequest.issuePost] else []) := by
    by_cases h1 : hs.ok = false
    · refine ⟨⟨"Handshake failed with status " ++ toString hs.status, ?_⟩, ?_⟩
      · simp [fetchJoinToken, fetchJoinTokenTr, hne, h1]
        rw [← String.append_assoc]
        congr 1
      · simp [joinTokenRequests, fetchJoinTokenTr, hne, h1]
    · have h1' : hs.ok = true := by
        cases hok : hs.ok
        · exact absurd hok h1
        · rfl
      by_cases h2 : challengeMissing hs = true
      · refine ⟨⟨"Auth API handshake did not return a challenge.", ?_⟩, ?_⟩
        · simp [fetchJoinToken, fetchJoinTokenTr, hne, h1', h2]
        · simp [joinTokenRequests, fetchJoinTokenTr, hne, h1', h2]
      · by_cases h3 : issue.ok = false
        · refine ⟨⟨jsOrElse issue.errorMsg
              ("Issue token failed with status " ++ toString issue.status), ?_⟩, ?_⟩
          · simp [fetchJoinToken, fetchJoinTokenTr, hne, h1', h2, h3]
          · simp [joinTokenRequests, fetchJoinTokenTr, hne, h1', h2, h3]
        · have h3' : issue.ok = true := by
            cases hok : issue.ok
            · exact absurd hok h3
            · rfl
          have h4 : joinTokenMissing issue = true := by
            rcases hfail with h | h | h | h
            · exact absurd h h1
            · exact absurd h h2
            · exact absurd h h3
            · exact h
          refine ⟨⟨"Auth API did not return a join_token.", ?_⟩, ?_⟩
          · simp [fetchJoinToken, fetchJoinTokenTr, hne, h1', h2, h3', h4]
          · simp [joinTokenRequests, fetchJoinTokenTr, hne, h1', h2, h3', h4]
  refine ⟨hmain.1, ?_, hmain.2⟩
  intro st
  rcases hmain.1 with ⟨msg, hmsg⟩
  exact ⟨"Auth API error: " ++ msg, by simp [buildSpawn, hmsg]⟩

/-- Witness for C9 at a failed handshake response. -/
theorem c9_witness :
    (∃ msg, fetchJoinToken ⟨"u", "n"⟩ ⟨false, 500, none⟩ ⟨true, 200, none, some "t"⟩
        = Except.error ("Auth API error: " ++ msg))
  ∧ (∀ st : PBState, ∃ e, buildSpawn st ⟨"u", "n"⟩ ⟨false, 500, none⟩
        ⟨true, 200, none, some "t"⟩ = Except.error e)
  ∧ joinTokenRequests ⟨"u", "n"⟩ ⟨false, 500, none⟩ ⟨true, 200, none, some "t"⟩
      = [ApiRequest.handshakeGet] := by
  have h := c9_join_token_failures ⟨"u", "n"⟩ ⟨false, 500, none⟩ ⟨true, 200, none, some "t"⟩
    (by decide) (by decide) (Or.inl rfl)
  refine ⟨h.1, h.2.1, ?_⟩
  rw [h.2.2]
  rfl

end PB
